import Mathlib

/-!
Verification of the DQT JSON visualizer core (src/src/App.jsx).

The file embeds the two algorithmic components of the application:

* the graph builder `generateFlow` / `traverse` (App.jsx lines 81-189),
  which turns a parsed JSON value into a node list, an edge list and a
  parent-to-children relation map, and
* the drag session manager `onNodeDragStart` / `onNodeDrag` /
  `onNodeDragStop` (App.jsx lines 192-265), which snapshots a dragged
  subtree and moves it rigidly on every move event.

JavaScript numbers are modelled as `Int` (every arithmetic operation the
core performs on positions is addition, subtraction and multiplication by
integer constants, plus one division of an even number by 2, all of which
are exact in floating point).  JavaScript objects used as string-keyed
maps are modelled as association lists whose lookup returns the first
matching entry; the code only ever stores one entry per key.
-/

mutual

/-- A parsed JSON value, as delivered to `generateFlow` by `JSON.parse`.
The three types are a mutual inductive block so that the traversal below
is structurally recursive (hence computable by the kernel). -/
inductive JSON where
  | null
  | bool (b : Bool)
  | num (n : Int)
  | str (s : String)
  | arr (xs : JSONList)
  | obj (kvs : JSONPairs)

/-- The element list of a JSON array. -/
inductive JSONList where
  | nil
  | cons (hd : JSON) (tl : JSONList)

/-- The key/value entry list of a JSON object (in insertion order). -/
inductive JSONPairs where
  | nil
  | cons (key : String) (val : JSON) (tl : JSONPairs)

end

/-- Number of elements of a JSON array literal. -/
def JSONList.length : JSONList → Nat
  | .nil => 0
  | .cons _ tl => tl.length + 1

/-- Number of entries of a JSON object literal. -/
def JSONPairs.length : JSONPairs → Nat
  | .nil => 0
  | .cons _ _ tl => tl.length + 1

/-- The JavaScript test "typeof v === \"object\"": true for arrays,
objects and also for null (a well-known JavaScript quirk). -/
def JSON.typeofObject : JSON → Bool
  | .null => true
  | .arr _ => true
  | .obj _ => true
  | _ => false

/-- The JavaScript test "Array.isArray(v)". -/
def JSON.isArray : JSON → Bool
  | .arr _ => true
  | _ => false

/-- The JavaScript test "v === null". -/
def JSON.isNull : JSON → Bool
  | .null => true
  | _ => false

/-- A container in the sense of the glossary: a JSON object or array,
equivalently a value satisfying "typeof v === \"object\" && v !== null". -/
def JSON.isContainer : JSON → Bool
  | .arr _ => true
  | .obj _ => true
  | _ => false

/-- The JavaScript conversion "String(v)" for the values the code applies
it to (primitives; the container branches are unreachable in the code). -/
def jsString : JSON → String
  | .null => "null"
  | .bool true => "true"
  | .bool false => "false"
  | .num n => toString n
  | .str s => s
  | .arr _ => ""
  | .obj _ => "[object Object]"

/-- A 2D position, the pair stored in a node's "position" field. -/
structure Pos where
  x : Int
  y : Int
deriving DecidableEq, Repr

/-- A react-flow node as produced by `traverse` (the constant style record
is omitted: it carries no program-relevant data). -/
structure FlowNode where
  id : String
  label : String
  position : Pos
  draggable : Bool
deriving DecidableEq, Repr

/-- A react-flow edge as produced by `traverse`. -/
structure FlowEdge where
  id : String
  source : String
  target : String
deriving DecidableEq, Repr

/-- The mutable state threaded through one run of `generateFlow`:
the newNodes and newEdges arrays, the relations object and the idCounter
ref (App.jsx lines 83-92). -/
structure BuildState where
  newNodes : List FlowNode
  newEdges : List FlowEdge
  relations : List (String × List String)
  counter : Nat
deriving DecidableEq, Repr

/-- Reading "relations[p]" from the relations object, defaulting to the
empty list when the key is absent (the code guards every read with
"relations[p] || []"). -/
def relLookup (rels : List (String × List String)) (p : String) : List String :=
  match rels with
  | [] => []
  | (k, l) :: rest => if k = p then l else relLookup rest p

/-- The statement "relations[p] = relations[p] || []; relations[p].push(c)":
append `c` to the children list of `p`, creating the entry if needed. -/
def relAppend (rels : List (String × List String)) (p c : String) :
    List (String × List String) :=
  match rels with
  | [] => [(p, [c])]
  | (k, l) :: rest => if k = p then (k, l ++ [c]) :: rest else (k, l) :: relAppend rest p c

mutual

/-- The recursive generator `traverse` of `generateFlow` (App.jsx lines
95-178).  It allocates a node for `node` itself, links it to `parentId`
when present, and, when `node` is a non-null object or array, lays out one
child node per entry one row below, recursing into container-valued
entries two rows below. -/
def traverseJSON (node : JSON) (depth : Int) (centerX : Int)
    (parentId : Option String) (st : BuildState) : BuildState :=
  let currentId := toString st.counter
  let y := depth * 120
  let label :=
    if node.typeofObject then (if node.isArray then "Array" else "Object")
    else jsString node
  let st1 : BuildState :=
    { st with
      counter := st.counter + 1
      newNodes := st.newNodes ++
        [{ id := currentId, label := label, position := { x := centerX, y := y },
           draggable := true }] }
  let st2 : BuildState :=
    match parentId with
    | some pid =>
      { st1 with
        newEdges := st1.newEdges ++
          [{ id := "e" ++ pid ++ "-" ++ currentId, source := pid, target := currentId }]
        relations := relAppend st1.relations pid currentId }
    | none => st1
  match node with
  | .arr xs =>
    let childCount : Int := xs.length
    let totalWidth := childCount * 220
    let startX := centerX - totalWidth / 2 + 220 / 2
    traverseArr xs 0 currentId depth startX st2
  | .obj kvs =>
    let childCount : Int := kvs.length
    let totalWidth := childCount * 220
    let startX := centerX - totalWidth / 2 + 220 / 2
    traversePairs kvs 0 currentId depth startX st2
  | _ => st2

/-- The "entries.forEach" loop of `traverse` (App.jsx lines 140-176) for an
array: the entry key is the index converted to a string, exactly what
"Object.entries" yields on a JavaScript array. -/
def traverseArr (xs : JSONList) (i : Nat) (currentId : String) (depth : Int)
    (startX : Int) (st : BuildState) : BuildState :=
  match xs with
  | .nil => st
  | .cons val tl =>
    let key := toString i
    let childX := startX + (i : Int) * 220
    let y := depth * 120
    let childId := toString st.counter
    let childLabel :=
      if val.typeofObject then key else key ++ ": " ++ jsString val
    let st1 : BuildState :=
      { st with
        counter := st.counter + 1
        newNodes := st.newNodes ++
          [{ id := childId, label := childLabel,
             position := { x := childX, y := y + 120 }, draggable := true }]
        newEdges := st.newEdges ++
          [{ id := "e" ++ currentId ++ "-" ++ childId, source := currentId,
             target := childId }]
        relations := relAppend st.relations currentId childId }
    let st2 :=
      if val.typeofObject && !val.isNull then
        traverseJSON val (depth + 2) childX (some childId) st1
      else st1
    traverseArr tl (i + 1) currentId depth startX st2

/-- The "entries.forEach" loop of `traverse` (App.jsx lines 140-176) for an
object, iterating the entries in insertion order. -/
def traversePairs (kvs : JSONPairs) (i : Nat) (currentId : String) (depth : Int)
    (startX : Int) (st : BuildState) : BuildState :=
  match kvs with
  | .nil => st
  | .cons key val tl =>
    let childX := startX + (i : Int) * 220
    let y := depth * 120
    let childId := toString st.counter
    let childLabel :=
      if val.typeofObject then key else key ++ ": " ++ jsString val
    let st1 : BuildState :=
      { st with
        counter := st.counter + 1
        newNodes := st.newNodes ++
          [{ id := childId, label := childLabel,
             position := { x := childX, y := y + 120 }, draggable := true }]
        newEdges := st.newEdges ++
          [{ id := "e" ++ currentId ++ "-" ++ childId, source := currentId,
             target := childId }]
        relations := relAppend st.relations currentId childId }
    let st2 :=
      if val.typeofObject && !val.isNull then
        traverseJSON val (depth + 2) childX (some childId) st1
      else st1
    traversePairs tl (i + 1) currentId depth startX st2

end

/-- The node/edge/relation triple committed by `generateFlow` (App.jsx
lines 180-186). -/
structure FlowResult where
  nodes : List FlowNode
  edges : List FlowEdge
  relations : List (String × List String)
deriving DecidableEq, Repr

/-- One full run of the graph builder: reset the id counter to 1, start
fresh arrays, traverse the root at depth 0 centered at x = 0 with no
parent, and commit the result (App.jsx lines 81-189). -/
def buildFlow (obj : JSON) : FlowResult :=
  let st := traverseJSON obj 0 0 none { newNodes := [], newEdges := [], relations := [], counter := 1 }
  { nodes := st.newNodes, edges := st.newEdges, relations := st.relations }

/-- The component-level mutable state that `generateFlow` interacts with:
the rendered node and edge sets, the idCounter ref, the parentMap ref and
the dragSnapshot ref (App.jsx lines 36-47). -/
structure AppState where
  nodes : List FlowNode
  edges : List FlowEdge
  idCounter : Nat
  parentMap : List (String × List String)
  dragSnapshot : List (String × List (String × Pos))
deriving DecidableEq, Repr

/-- The effect of one call of `generateFlow` on the component state: the
id counter is reset to 1 before the traversal, the node, edge and
relation sets are replaced wholesale by the freshly built ones, and the
dragSnapshot ref is left untouched (no statement of `generateFlow`, nor
of the effect that calls it, writes to it - App.jsx lines 49-78 and
81-189). -/
def runGenerateFlow (obj : JSON) (app : AppState) : AppState :=
  let st := traverseJSON obj 0 0 none { newNodes := [], newEdges := [], relations := [], counter := 1 }
  { nodes := st.newNodes
    edges := st.newEdges
    idCounter := st.counter
    parentMap := st.relations
    dragSnapshot := app.dragSnapshot }

/-- A drag snapshot: the positions of the dragged node and of its
descendants, frozen at drag start (the object stored in
"dragSnapshot.current[nodeId]"). -/
abbrev Snapshot := List (String × Pos)

/-- Reading "snapshot[id]" from a snapshot object. -/
def snapPos (s : Snapshot) (id : String) : Option Pos :=
  match s with
  | [] => none
  | (k, p) :: rest => if k = id then some p else snapPos rest id

/-- Reading "dragSnapshot.current[nodeId]". -/
def snapLookup (m : List (String × Snapshot)) (nodeId : String) : Option Snapshot :=
  match m with
  | [] => none
  | (k, s) :: rest => if k = nodeId then some s else snapLookup rest nodeId

/-- The assignment "dragSnapshot.current[nodeId] = snapshot". -/
def snapUpdate (m : List (String × Snapshot)) (nodeId : String) (s : Snapshot) :
    List (String × Snapshot) :=
  match m with
  | [] => [(nodeId, s)]
  | (k, s0) :: rest =>
    if k = nodeId then (nodeId, s) :: rest else (k, s0) :: snapUpdate rest nodeId s

/-- The statement "delete dragSnapshot.current[nodeId]". -/
def snapDelete (m : List (String × Snapshot)) (nodeId : String) :
    List (String × Snapshot) :=
  match m with
  | [] => []
  | (k, s0) :: rest =>
    if k = nodeId then rest else (k, s0) :: snapDelete rest nodeId

/-- Reading the live position of node `id` from the node set (the nodeMap
built in `onNodeDragStart`; node ids produced by `generateFlow` are
unique, so first match equals the JavaScript object lookup). -/
def posLookup (nodes : List FlowNode) (id : String) : Option Pos :=
  match nodes with
  | [] => none
  | n :: rest => if n.id = id then some n.position else posLookup rest id

/-- The state that the drag session manager reads and writes: the live
node set, the parentMap from the most recent build and the active drag
snapshots. -/
structure DragState where
  nodes : List FlowNode
  parentMap : List (String × List String)
  dragSnapshot : List (String × Snapshot)
deriving DecidableEq, Repr

/-- The body of the while loop of `collectDescendants` (App.jsx lines
197-202): shift an id off the queue, collect it, and push its children.
The JavaScript loop has no fuel parameter; it terminates precisely when
the walk stops (always, for the acyclic single-parent maps that
`generateFlow` produces), and the fuel below is large enough that the
recursion never cuts a run short on such maps. -/
def descendLoop (fuel : Nat) (stack : List String) (collected : List String)
    (pm : List (String × List String)) : List String :=
  match fuel, stack with
  | _, [] => collected
  | 0, _ => collected
  | fuel + 1, child :: rest =>
    let children := relLookup pm child
    descendLoop fuel (rest ++ children) (collected ++ [child]) pm

/-- The utility `collectDescendants` (App.jsx lines 192-204): all ids
reachable from `parentId` through the parentMap, in breadth-first order. -/
def collectDescendants (pm : List (String × List String)) (parentId : String) :
    List String :=
  descendLoop ((pm.map fun kv => kv.2.length).sum + 1) (relLookup pm parentId) [] pm

/-- The handler `onNodeDragStart` (App.jsx lines 207-227): snapshot the
position of the dragged node (as carried by the event) and of every
descendant; a descendant missing from the live node set is seeded at the
dragged node's position offset by 40 vertically instead of failing. -/
def onNodeDragStart (nodeId : String) (nodePos : Pos) (st : DragState) : DragState :=
  let descendants := collectDescendants st.parentMap nodeId
  let snapshot : Snapshot :=
    (nodeId, nodePos) ::
      descendants.map fun d =>
        (d, match posLookup st.nodes d with
            | some p => p
            | none => { x := nodePos.x, y := nodePos.y + 40 })
  { st with dragSnapshot := snapUpdate st.dragSnapshot nodeId snapshot }

/-- The per-node update applied by the rendering component while a node is
dragged: react-flow moves the dragged node itself to the event position
through its own position-change pipeline (the `onNodesChange` handler in
App.jsx line 340), independently of `onNodeDrag`. -/
def moveNodeTo (r : String) (p : Pos) (n : FlowNode) : FlowNode :=
  if n.id = r then { n with position := p } else n

/-- The renderer's own effect of one move event: the dragged node is at
the event position in the live node set when `onNodeDrag` runs. -/
def rendererMove (r : String) (p : Pos) (st : DragState) : DragState :=
  { st with nodes := st.nodes.map (moveNodeTo r p) }

/-- The per-node update of the `setNodes` call in `onNodeDrag` (App.jsx
lines 244-258): a node captured in the snapshot is placed at its frozen
snapshot position translated by the delta; any other node is returned
unchanged. -/
def applySnapshotDelta (snapshot : Snapshot) (dx dy : Int) (n : FlowNode) : FlowNode :=
  match snapPos snapshot n.id with
  | some sp => { n with position := { x := sp.x + dx, y := sp.y + dy } }
  | none => n

/-- The handler `onNodeDrag` (App.jsx lines 230-259): look up the frozen
snapshot for the dragged id (no-op when absent), compute the delta of the
event position from the snapshot position of the dragged node, and move
every snapshotted node to its snapshot position plus the delta.  When the
snapshot holds no id other than the dragged one the handler returns early
without touching the node set.  The inner `none` branch is unreachable
for snapshots created by `onNodeDragStart`, which always record the
dragged node; the JavaScript would fault reading "startPos.x" there. -/
def onNodeDrag (nodeId : String) (newPos : Pos) (st : DragState) : DragState :=
  match snapLookup st.dragSnapshot nodeId with
  | none => st
  | some snapshot =>
    match snapPos snapshot nodeId with
    | none => st
    | some startPos =>
      let dx := newPos.x - startPos.x
      let dy := newPos.y - startPos.y
      let descendants := (snapshot.map Prod.fst).filter fun id => id ≠ nodeId
      if descendants.isEmpty then st
      else { st with nodes := st.nodes.map (applySnapshotDelta snapshot dx dy) }

/-- The handler `onNodeDragStop` (App.jsx lines 262-265). -/
def onNodeDragStop (nodeId : String) (st : DragState) : DragState :=
  { st with dragSnapshot := snapDelete st.dragSnapshot nodeId }

/-- One complete DragMove event as seen by the system: the rendering
component applies the dragged node's event position to its node set, then
the `onNodeDrag` handler runs against that set. -/
def dragMove (nodeId : String) (newPos : Pos) (st : DragState) : DragState :=
  onNodeDrag nodeId newPos (rendererMove nodeId newPos st)

mutual

/-- Claim-side count, following the words of the spec sentence behind C2:
"the total number of entries across every container encountered during
traversal (primitives contribute 0 extra)".  The traversal encounters a
container's entries and recurses into container-valued entries only;
primitive values contribute nothing. -/
def totalEntries : JSON → Nat
  | .arr xs => xs.length + totalEntriesArr xs
  | .obj kvs => kvs.length + totalEntriesPairs kvs
  | _ => 0

/-- Entry total contributed by the elements of an array. -/
def totalEntriesArr : JSONList → Nat
  | .nil => 0
  | .cons v tl => totalEntries v + totalEntriesArr tl

/-- Entry total contributed by the entry values of an object. -/
def totalEntriesPairs : JSONPairs → Nat
  | .nil => 0
  | .cons _ v tl => totalEntries v + totalEntriesPairs tl

end

mutual

/-- The number of containers the traversal of `v` encounters strictly
below the root value: one for every container occurring as an entry value
at any depth.  Each of these receives a node of its own when the
traversal recurses into it. -/
def nestedContainers : JSON → Nat
  | .arr xs => nestedContainersArr xs
  | .obj kvs => nestedContainersPairs kvs
  | _ => 0

/-- Nested-container count contributed by the elements of an array. -/
def nestedContainersArr : JSONList → Nat
  | .nil => 0
  | .cons v tl =>
    (if v.isContainer then 1 + nestedContainers v else 0) + nestedContainersArr tl

/-- Nested-container count contributed by the entry values of an object. -/
def nestedContainersPairs : JSONPairs → Nat
  | .nil => 0
  | .cons _ v tl =>
    (if v.isContainer then 1 + nestedContainers v else 0) + nestedContainersPairs tl

end

/-- Claim-side entry label rule of C6, amended for the null quirk of the
code: the entry node's label is the bare key when the entry's value is a
container or null, and "key: value" otherwise. -/
def entryLabelSpec (key : String) (v : JSON) : String :=
  if v.isContainer || v.isNull then key else key ++ ": " ++ jsString v

mutual

/-- Claim-side label rule of C6, amended for the null quirk of the code,
listing the labels of all nodes of the traversal of `v` in traversal
order: the value's own node is labelled "Array" for an array, "Object"
for an object and for null, and the primitive's string form otherwise;
the labels of its entry nodes and of the recursively visited container
values follow. -/
def labelSpec : JSON → List String
  | .null => ["Object"]
  | .arr xs => "Array" :: labelSpecArr xs 0
  | .obj kvs => "Object" :: labelSpecPairs kvs
  | v => [jsString v]

/-- Labels contributed by the elements of an array, keyed by index. -/
def labelSpecArr : JSONList → Nat → List String
  | .nil, _ => []
  | .cons v tl, i =>
    entryLabelSpec (toString i) v ::
      ((if v.isContainer then labelSpec v else []) ++ labelSpecArr tl (i + 1))

/-- Labels contributed by the entries of an object. -/
def labelSpecPairs : JSONPairs → List String
  | .nil => []
  | .cons k v tl =>
    entryLabelSpec k v ::
      ((if v.isContainer then labelSpec v else []) ++ labelSpecPairs tl)

end

/-- Agreement of the relations object and the edge array: `b` is recorded
as a child of `a` exactly when an edge from `a` to `b` has been pushed. -/
def relEdgeAgree (rels : List (String × List String)) (edges : List FlowEdge) : Prop :=
  ∀ a b : String, b ∈ relLookup rels a ↔ ∃ e ∈ edges, e.source = a ∧ e.target = b

/-- Concrete drag state used by witnesses: the three-node graph of the
input object with keys a and b, with an active drag of the root node 1
whose snapshot covers the whole graph. -/
def exDragState : DragState :=
  { nodes := [
      { id := "1", label := "Object", position := { x := 0, y := 0 }, draggable := true },
      { id := "2", label := "a: 1", position := { x := -110, y := 120 }, draggable := true },
      { id := "3", label := "b: 2", position := { x := 110, y := 120 }, draggable := true }],
    parentMap := [("1", ["2", "3"])],
    dragSnapshot := [("1",
      [("1", { x := 0, y := 0 }), ("2", { x := -110, y := 120 }),
       ("3", { x := 110, y := 120 })])] }

/-- The frozen snapshot of `exDragState`'s active drag. -/
def exSnap : Snapshot :=
  [("1", { x := 0, y := 0 }), ("2", { x := -110, y := 120 }),
   ("3", { x := 110, y := 120 })]

/-- Concrete drag state with an active drag of the childless node 3,
whose snapshot therefore holds node 3 alone. -/
def exLeafDrag : DragState :=
  { nodes := [
      { id := "1", label := "Object", position := { x := 0, y := 0 }, draggable := true },
      { id := "2", label := "a: 1", position := { x := -110, y := 120 }, draggable := true },
      { id := "3", label := "b: 2", position := { x := 110, y := 120 }, draggable := true }],
    parentMap := [("1", ["2", "3"])],
    dragSnapshot := [("3", [("3", { x := 110, y := 120 })])] }

/-- Concrete drag state with no active drag at all. -/
def exNoDrag : DragState :=
  { nodes := [
      { id := "1", label := "Object", position := { x := 0, y := 0 }, draggable := true }],
    parentMap := [],
    dragSnapshot := [] }

/-- Concrete drag state whose relation index mentions a descendant 2 of
node 1 that is absent from the live node set. -/
def exMissing : DragState :=
  { nodes := [
      { id := "1", label := "Object", position := { x := 3, y := 4 }, draggable := true }],
    parentMap := [("1", ["2"])],
    dragSnapshot := [] }

/-- Concrete component state holding an in-progress drag snapshot keyed on
node 9 of the currently rendered graph, just before a rebuild. -/
def exStaleApp : AppState :=
  { nodes := [
      { id := "9", label := "Object", position := { x := 0, y := 0 }, draggable := true },
      { id := "10", label := "x: 1", position := { x := 0, y := 120 }, draggable := true }],
    edges := [{ id := "e9-10", source := "9", target := "10" }],
    idCounter := 11,
    parentMap := [("9", ["10"])],
    dragSnapshot := [("9", [("9", { x := 0, y := 0 }), ("10", { x := 0, y := 120 })])] }

theorem typeofObject_eq_or (v : JSON) : v.typeofObject = (v.isContainer || v.isNull) := by
  cases v <;> rfl

theorem typeofObject_and_not_null (v : JSON) :
    (v.typeofObject && !v.isNull) = v.isContainer := by
  cases v <;> rfl

mutual

theorem traverseJSON_labels (v : JSON) (d cx : Int) (pid : Option String) (st : BuildState) :
    (traverseJSON v d cx pid st).newNodes.map FlowNode.label
      = st.newNodes.map FlowNode.label ++ labelSpec v := by
  cases v with
  | null => cases pid <;> simp [traverseJSON, labelSpec, JSON.typeofObject, JSON.isArray]
  | bool b => cases b <;> cases pid <;> simp [traverseJSON, labelSpec, jsString, JSON.typeofObject, JSON.isArray]
  | num n => cases pid <;> simp [traverseJSON, labelSpec, jsString, JSON.typeofObject, JSON.isArray]
  | str s => cases pid <;> simp [traverseJSON, labelSpec, jsString, JSON.typeofObject, JSON.isArray]
  | arr xs =>
    cases pid <;>
      simp [traverseJSON, labelSpec, traverseArr_labels, JSON.typeofObject, JSON.isArray]
  | obj kvs =>
    cases pid <;>
      simp [traverseJSON, labelSpec, traversePairs_labels, JSON.typeofObject, JSON.isArray]

theorem traverseArr_labels (xs : JSONList) (i : Nat) (cid : String) (d sx : Int)
    (st : BuildState) :
    (traverseArr xs i cid d sx st).newNodes.map FlowNode.label
      = st.newNodes.map FlowNode.label ++ labelSpecArr xs i := by
  cases xs with
  | nil => simp [traverseArr, labelSpecArr]
  | cons v tl =>
    simp only [traverseArr, labelSpecArr]
    rw [typeofObject_and_not_null]
    cases hc : v.isContainer with
    | true =>
      simp [traverseArr_labels tl, traverseJSON_labels v, hc, entryLabelSpec,
        typeofObject_eq_or]
    | false =>
      simp [traverseArr_labels tl, hc, entryLabelSpec, typeofObject_eq_or]

theorem traversePairs_labels (kvs : JSONPairs) (i : Nat) (cid : String) (d sx : Int)
    (st : BuildState) :
    (traversePairs kvs i cid d sx st).newNodes.map FlowNode.label
      = st.newNodes.map FlowNode.label ++ labelSpecPairs kvs := by
  cases kvs with
  | nil => simp [traversePairs, labelSpecPairs]
  | cons k v tl =>
    simp only [traversePairs, labelSpecPairs]
    rw [typeofObject_and_not_null]
    cases hc : v.isContainer with
    | true =>
      simp [traversePairs_labels tl, traverseJSON_labels v, hc, entryLabelSpec,
        typeofObject_eq_or]
    | false =>
      simp [traversePairs_labels tl, hc, entryLabelSpec, typeofObject_eq_or]

end

theorem totalEntries_of_not_container (v : JSON) (h : v.isContainer = false) :
    totalEntries v = 0 := by
  cases v <;> simp_all [JSON.isContainer, totalEntries]

mutual

theorem labelSpec_length (v : JSON) :
    (labelSpec v).length = 1 + totalEntries v + nestedContainers v := by
  cases v with
  | null => simp [labelSpec, totalEntries, nestedContainers]
  | bool b => simp [labelSpec, totalEntries, nestedContainers]
  | num n => simp [labelSpec, totalEntries, nestedContainers]
  | str s => simp [labelSpec, totalEntries, nestedContainers]
  | arr xs =>
    simp [labelSpec, totalEntries, nestedContainers, labelSpecArr_length xs]
    omega
  | obj kvs =>
    simp [labelSpec, totalEntries, nestedContainers, labelSpecPairs_length kvs]
    omega

theorem labelSpecArr_length (xs : JSONList) (i : Nat) :
    (labelSpecArr xs i).length
      = xs.length + totalEntriesArr xs + nestedContainersArr xs := by
  cases xs with
  | nil => simp [labelSpecArr, JSONList.length, totalEntriesArr, nestedContainersArr]
  | cons v tl =>
    rw [labelSpecArr]
    cases hc : v.isContainer with
    | true =>
      simp [hc, JSONList.length, totalEntriesArr, nestedContainersArr,
        labelSpecArr_length tl, labelSpec_length v]
      omega
    | false =>
      simp [hc, JSONList.length, totalEntriesArr, nestedContainersArr,
        labelSpecArr_length tl, totalEntries_of_not_container v hc]
      omega

theorem labelSpecPairs_length (kvs : JSONPairs) :
    (labelSpecPairs kvs).length
      = kvs.length + totalEntriesPairs kvs + nestedContainersPairs kvs := by
  cases kvs with
  | nil => simp [labelSpecPairs, JSONPairs.length, totalEntriesPairs, nestedContainersPairs]
  | cons k v tl =>
    rw [labelSpecPairs]
    cases hc : v.isContainer with
    | true =>
      simp [hc, JSONPairs.length, totalEntriesPairs, nestedContainersPairs,
        labelSpecPairs_length tl, labelSpec_length v]
      omega
    | false =>
      simp [hc, JSONPairs.length, totalEntriesPairs, nestedContainersPairs,
        labelSpecPairs_length tl, totalEntries_of_not_container v hc]
      omega

end

theorem relLookup_relAppend (rels : List (String × List String)) (p c q : String) :
    relLookup (relAppend rels p c) q
      = if q = p then relLookup rels p ++ [c] else relLookup rels q := by
  induction rels with
  | nil =>
    by_cases h : q = p <;> simp_all [relAppend, relLookup]
    · exact fun hpq => h hpq.symm
  | cons kv rest ih =>
    by_cases hk : kv.1 = p <;> by_cases hq : kv.1 = q <;> by_cases hqp : q = p <;>
      simp_all [relAppend, relLookup]

theorem mem_relAppend (rels : List (String × List String)) (p c a b : String) :
    b ∈ relLookup (relAppend rels p c) a ↔ b ∈ relLookup rels a ∨ (a = p ∧ b = c) := by
  rw [relLookup_relAppend]
  by_cases h : a = p
  · subst h
    simp
  · simp [h, fun hpq : a = p => h hpq]

theorem exists_edge_append (edges : List FlowEdge) (eid p c a b : String) :
    (∃ e ∈ edges ++ [{ id := eid, source := p, target := c }], e.source = a ∧ e.target = b)
      ↔ (∃ e ∈ edges, e.source = a ∧ e.target = b) ∨ (a = p ∧ b = c) := by
  constructor
  · rintro ⟨e, he, hes, het⟩
    rcases List.mem_append.1 he with he1 | he1
    · exact Or.inl ⟨e, he1, hes, het⟩
    · rw [List.mem_singleton] at he1
      subst he1
      exact Or.inr ⟨hes.symm, het.symm⟩
  · rintro (⟨e, he, hes, het⟩ | ⟨ha, hb⟩)
    · exact ⟨e, List.mem_append_left _ he, hes, het⟩
    · subst ha
      subst hb
      exact ⟨{ id := eid, source := a, target := b },
        List.mem_append_right _ (List.mem_singleton.2 rfl), rfl, rfl⟩

theorem relEdgeAgree_push (rels : List (String × List String)) (edges : List FlowEdge)
    (p c eid : String) (h : relEdgeAgree rels edges) :
    relEdgeAgree (relAppend rels p c)
      (edges ++ [{ id := eid, source := p, target := c }]) := by
  intro a b
  rw [mem_relAppend, exists_edge_append]
  exact or_congr (h a b) Iff.rfl

mutual

theorem traverseJSON_agree (v : JSON) (d cx : Int) (pid : Option String)
    (st : BuildState) (h : relEdgeAgree st.relations st.newEdges) :
    relEdgeAgree (traverseJSON v d cx pid st).relations
      (traverseJSON v d cx pid st).newEdges := by
  cases v with
  | null => cases pid with
    | none => exact h
    | some pid1 => exact relEdgeAgree_push st.relations st.newEdges pid1 _ _ h
  | bool b => cases pid with
    | none => exact h
    | some pid1 => exact relEdgeAgree_push st.relations st.newEdges pid1 _ _ h
  | num n => cases pid with
    | none => exact h
    | some pid1 => exact relEdgeAgree_push st.relations st.newEdges pid1 _ _ h
  | str s => cases pid with
    | none => exact h
    | some pid1 => exact relEdgeAgree_push st.relations st.newEdges pid1 _ _ h
  | arr xs => cases pid with
    | none => exact traverseArr_agree xs 0 _ d _ _ h
    | some pid1 =>
      exact traverseArr_agree xs 0 _ d _ _
        (relEdgeAgree_push st.relations st.newEdges pid1 _ _ h)
  | obj kvs => cases pid with
    | none => exact traversePairs_agree kvs 0 _ d _ _ h
    | some pid1 =>
      exact traversePairs_agree kvs 0 _ d _ _
        (relEdgeAgree_push st.relations st.newEdges pid1 _ _ h)

theorem traverseArr_agree (xs : JSONList) (i : Nat) (cid : String) (d sx : Int)
    (st : BuildState) (h : relEdgeAgree st.relations st.newEdges) :
    relEdgeAgree (traverseArr xs i cid d sx st).relations
      (traverseArr xs i cid d sx st).newEdges := by
  cases xs with
  | nil => exact h
  | cons v tl =>
    rw [traverseArr]
    cases hc : (v.typeofObject && !v.isNull) with
    | true =>
      rw [if_pos rfl]
      exact traverseArr_agree tl (i + 1) cid d sx _
        (traverseJSON_agree v (d + 2) _ _ _
          (relEdgeAgree_push st.relations st.newEdges cid _ _ h))
    | false =>
      rw [if_neg (by simp)]
      exact traverseArr_agree tl (i + 1) cid d sx _
        (relEdgeAgree_push st.relations st.newEdges cid _ _ h)

theorem traversePairs_agree (kvs : JSONPairs) (i : Nat) (cid : String) (d sx : Int)
    (st : BuildState) (h : relEdgeAgree st.relations st.newEdges) :
    relEdgeAgree (traversePairs kvs i cid d sx st).relations
      (traversePairs kvs i cid d sx st).newEdges := by
  cases kvs with
  | nil => exact h
  | cons k v tl =>
    rw [traversePairs]
    cases hc : (v.typeofObject && !v.isNull) with
    | true =>
      rw [if_pos rfl]
      exact traversePairs_agree tl (i + 1) cid d sx _
        (traverseJSON_agree v (d + 2) _ _ _
          (relEdgeAgree_push st.relations st.newEdges cid _ _ h))
    | false =>
      rw [if_neg (by simp)]
      exact traversePairs_agree tl (i + 1) cid d sx _
        (relEdgeAgree_push st.relations st.newEdges cid _ _ h)

end

theorem moveNodeTo_id (r : String) (p : Pos) (n : FlowNode) :
    (moveNodeTo r p n).id = n.id := by
  unfold moveNodeTo; split <;> rfl

theorem applySnapshotDelta_id (S : Snapshot) (dx dy : Int) (n : FlowNode) :
    (applySnapshotDelta S dx dy n).id = n.id := by
  unfold applySnapshotDelta; split <;> rfl

theorem rendererMove_dragSnapshot (r : String) (p : Pos) (st : DragState) :
    (rendererMove r p st).dragSnapshot = st.dragSnapshot := rfl

theorem onNodeDrag_dragSnapshot (r : String) (P : Pos) (st : DragState) :
    (onNodeDrag r P st).dragSnapshot = st.dragSnapshot := by
  unfold onNodeDrag
  split
  · rfl
  · split
    · rfl
    · dsimp only
      split <;> rfl

theorem dragMove_dragSnapshot (r : String) (P : Pos) (st : DragState) :
    (dragMove r P st).dragSnapshot = st.dragSnapshot := by
  unfold dragMove
  rw [onNodeDrag_dragSnapshot, rendererMove_dragSnapshot]

theorem onNodeDrag_parentMap (r : String) (P : Pos) (st : DragState) :
    (onNodeDrag r P st).parentMap = st.parentMap := by
  unfold onNodeDrag
  split
  · rfl
  · split
    · rfl
    · dsimp only
      split <;> rfl

theorem dragMove_parentMap (r : String) (P : Pos) (st : DragState) :
    (dragMove r P st).parentMap = st.parentMap := by
  unfold dragMove
  rw [onNodeDrag_parentMap]; rfl

theorem dragMove_of_no_snapshot (st : DragState) (r : String) (P : Pos)
    (hS : snapLookup st.dragSnapshot r = none) :
    dragMove r P st = rendererMove r P st := by
  unfold dragMove onNodeDrag
  rw [rendererMove_dragSnapshot, hS]

theorem dragMove_of_no_start (st : DragState) (r : String) (P : Pos) (S : Snapshot)
    (hS : snapLookup st.dragSnapshot r = some S) (h0 : snapPos S r = none) :
    dragMove r P st = rendererMove r P st := by
  unfold dragMove onNodeDrag
  rw [rendererMove_dragSnapshot, hS]
  dsimp only
  rw [h0]

theorem dragMove_of_leaf (st : DragState) (r : String) (P : Pos) (S : Snapshot) (s0 : Pos)
    (hS : snapLookup st.dragSnapshot r = some S) (h0 : snapPos S r = some s0)
    (hemp : ((S.map Prod.fst).filter fun id => id ≠ r).isEmpty = true) :
    dragMove r P st = rendererMove r P st := by
  unfold dragMove onNodeDrag
  rw [rendererMove_dragSnapshot, hS]
  dsimp only
  rw [h0]
  dsimp only
  rw [hemp]
  rfl

theorem dragMove_of_descendants (st : DragState) (r : String) (P : Pos) (S : Snapshot)
    (s0 : Pos)
    (hS : snapLookup st.dragSnapshot r = some S) (h0 : snapPos S r = some s0)
    (hemp : ((S.map Prod.fst).filter fun id => id ≠ r).isEmpty = false) :
    dragMove r P st =
      { st with nodes := st.nodes.map fun n =>
          applySnapshotDelta S (P.x - s0.x) (P.y - s0.y) (moveNodeTo r P n) } := by
  unfold dragMove onNodeDrag
  rw [rendererMove_dragSnapshot, hS]
  dsimp only
  rw [h0]
  dsimp only
  rw [hemp]
  simp only [Bool.false_eq_true, if_false, rendererMove, List.map_map]
  rfl

theorem moveNodeTo_eq (r : String) (P : Pos) (n : FlowNode) :
    moveNodeTo r P n =
      { id := n.id, label := n.label,
        position := if n.id = r then P else n.position, draggable := n.draggable } := by
  obtain ⟨nid, nlbl, npos, ndr⟩ := n
  unfold moveNodeTo
  by_cases h : nid = r <;> simp [h]

theorem applySnapshotDelta_eq (S : Snapshot) (dx dy : Int) (n : FlowNode) :
    applySnapshotDelta S dx dy n =
      { id := n.id, label := n.label,
        position :=
          match snapPos S n.id with
          | some sp => { x := sp.x + dx, y := sp.y + dy }
          | none => n.position,
        draggable := n.draggable } := by
  obtain ⟨nid, nlbl, npos, ndr⟩ := n
  unfold applySnapshotDelta
  cases h : snapPos S nid <;> simp [h]

theorem snapPos_some_mem (S : Snapshot) (id : String) (p : Pos)
    (h : snapPos S id = some p) : id ∈ S.map Prod.fst := by
  induction S with
  | nil => simp [snapPos] at h
  | cons kv rest ih =>
    rw [snapPos] at h
    by_cases hk : kv.1 = id
    · simp [hk]
    · simp only [hk, if_false] at h
      simp [ih h]

theorem keys_all_root_of_isEmpty (S : Snapshot) (r : String)
    (hemp : ((S.map Prod.fst).filter fun id => id ≠ r).isEmpty = true) :
    ∀ id ∈ S.map Prod.fst, id = r := by
  intro id hid
  rw [List.isEmpty_iff] at hemp
  have := List.filter_eq_nil_iff.1 hemp id hid
  simpa using this

theorem foldl_dragMove_dragSnapshot (ps : List Pos) (r : String) (st : DragState) :
    (ps.foldl (fun s q => dragMove r q s) st).dragSnapshot = st.dragSnapshot := by
  induction ps generalizing st with
  | nil => rfl
  | cons p tl ih => rw [List.foldl_cons, ih, dragMove_dragSnapshot]

theorem dragMove_rigid_step (st : DragState) (r : String) (P : Pos) (S : Snapshot)
    (s0 : Pos)
    (hS : snapLookup st.dragSnapshot r = some S) (h0 : snapPos S r = some s0) :
    ∀ n ∈ (dragMove r P st).nodes, ∀ sp, snapPos S n.id = some sp →
      n.position = { x := sp.x + (P.x - s0.x), y := sp.y + (P.y - s0.y) } := by
  cases hemp : ((S.map Prod.fst).filter fun id => id ≠ r).isEmpty with
  | true =>
    rw [dragMove_of_leaf st r P S s0 hS h0 hemp]
    intro n hn sp hsp
    obtain ⟨m, hm, rfl⟩ := List.mem_map.1 hn
    rw [moveNodeTo_eq] at hsp ⊢
    simp only at hsp
    have hmr : m.id = r :=
      keys_all_root_of_isEmpty S r hemp m.id (snapPos_some_mem S m.id sp hsp)
    rw [hmr, h0] at hsp
    obtain rfl : s0 = sp := Option.some.inj hsp
    simp only [hmr, if_pos]
    cases P
    simp [Pos.mk.injEq]
  | false =>
    rw [dragMove_of_descendants st r P S s0 hS h0 hemp]
    intro n hn sp hsp
    obtain ⟨m, hm, rfl⟩ := List.mem_map.1 hn
    rw [applySnapshotDelta_eq, moveNodeTo_eq] at hsp ⊢
    simp only at hsp ⊢
    simp [hsp]

theorem posLookup_map_fixed (f : FlowNode → FlowNode) (xs : List FlowNode) (id : String)
    (hid : ∀ n, (f n).id = n.id) (hfix : ∀ n, n.id = id → f n = n) :
    posLookup (xs.map f) id = posLookup xs id := by
  induction xs with
  | nil => rfl
  | cons n rest ih =>
    rw [List.map_cons, posLookup, posLookup, hid n]
    by_cases h : n.id = id
    · rw [if_pos h, if_pos h, hfix n h]
    · rw [if_neg h, if_neg h, ih]

theorem moveNodeTo_fixed (r : String) (P : Pos) (n : FlowNode) (h : ¬ n.id = r) :
    moveNodeTo r P n = n := by
  rw [moveNodeTo_eq]
  simp [h]

theorem applySnapshotDelta_fixed (S : Snapshot) (dx dy : Int) (n : FlowNode)
    (h : snapPos S n.id = none) : applySnapshotDelta S dx dy n = n := by
  rw [applySnapshotDelta_eq]
  simp [h]

theorem ne_root_of_snapPos_none (S : Snapshot) (r id : String) (s0 : Pos)
    (h0 : snapPos S r = some s0) (hout : snapPos S id = none) : ¬ id = r := by
  intro h
  rw [h, h0] at hout
  exact Option.noConfusion hout

theorem moveNodeTo_idem (r : String) (P : Pos) (n : FlowNode) :
    moveNodeTo r P (moveNodeTo r P n) = moveNodeTo r P n := by
  simp only [moveNodeTo_eq]
  by_cases h : n.id = r <;> simp [h]

theorem rendererMove_idem (r : String) (P : Pos) (st : DragState) :
    rendererMove r P (rendererMove r P st) = rendererMove r P st := by
  unfold rendererMove
  rw [List.map_map, show (moveNodeTo r P ∘ moveNodeTo r P) = moveNodeTo r P from
    funext fun n => moveNodeTo_idem r P n]

theorem applyMove_idem (S : Snapshot) (dx dy : Int) (r : String) (P : Pos) (n : FlowNode) :
    applySnapshotDelta S dx dy (moveNodeTo r P (applySnapshotDelta S dx dy (moveNodeTo r P n)))
      = applySnapshotDelta S dx dy (moveNodeTo r P n) := by
  simp only [moveNodeTo_eq, applySnapshotDelta_eq]
  cases hsp : snapPos S n.id <;> by_cases hr : n.id = r <;> simp [hsp, hr]

theorem snapLookup_snapUpdate_self (m : List (String × Snapshot)) (k : String)
    (s : Snapshot) : snapLookup (snapUpdate m k s) k = some s := by
  induction m with
  | nil => simp [snapUpdate, snapLookup]
  | cons kv rest ih =>
    rw [snapUpdate]
    by_cases h : kv.1 = k
    · rw [if_pos h, snapLookup, if_pos rfl]
    · rw [if_neg h, snapLookup, if_neg h, ih]

theorem snapPos_map_pair (l : List String) (g : String → Pos) (d : String) (hd : d ∈ l) :
    snapPos (l.map fun x => (x, g x)) d = some (g d) := by
  induction l with
  | nil => cases hd
  | cons a tl ih =>
    rw [List.map_cons, snapPos]
    by_cases h : a = d
    · rw [if_pos h, h]
    · rw [if_neg h]
      exact ih (by cases List.mem_cons.1 hd with
        | inl he => exact absurd he.symm h
        | inr ht => exact ht)

/-- C1: rigid-body drag.  For every active drag whose stored snapshot for
the root id `r` is `S`, after a DragMove of `r` to `P` - no matter how
many intermediate DragMove events for `r` preceded it - every live node
whose id was captured in `S` sits exactly at its frozen snapshot position
translated by `P` minus the snapshot position of `r`. -/
theorem dragMove_rigid_body (st : DragState) (r : String) (ps : List Pos) (P : Pos)
    (S : Snapshot) (s0 : Pos)
    (hS : snapLookup st.dragSnapshot r = some S) (h0 : snapPos S r = some s0) :
    ∀ n ∈ (dragMove r P (ps.foldl (fun s q => dragMove r q s) st)).nodes,
      ∀ sp, snapPos S n.id = some sp →
        n.position = { x := sp.x + (P.x - s0.x), y := sp.y + (P.y - s0.y) } := by
  apply dragMove_rigid_step
  · rw [foldl_dragMove_dragSnapshot, hS]
  · exact h0

/-- Witness for C1: in the concrete drag state, after an intermediate move
to (10, 10) and a final move of the root to (50, 30), the node 2 captured
at (-110, 120) sits at (-60, 150). -/
theorem dragMove_rigid_body_witness :
    snapLookup exDragState.dragSnapshot "1" = some exSnap ∧
    snapPos exSnap "1" = some { x := 0, y := 0 } ∧
    ({ id := "2", label := "a: 1", position := { x := -60, y := 150 },
       draggable := true } : FlowNode).position
      = { x := -110 + (50 - 0), y := 120 + (30 - 0) } := by
  refine ⟨by decide, by decide, ?_⟩
  exact dragMove_rigid_body exDragState "1" [{ x := 10, y := 10 }] { x := 50, y := 30 }
    exSnap { x := 0, y := 0 } (by decide) (by decide)
    { id := "2", label := "a: 1", position := { x := -60, y := 150 }, draggable := true }
    (by decide) { x := -110, y := 120 } (by decide)

/-- C7: DragMove is idempotent: a repeated DragMove event with the same
target position leaves the whole drag state - in particular every live
node position - unchanged after the first one, because positions are
always recomputed from the frozen snapshot. -/
theorem dragMove_idempotent (st : DragState) (r : String) (P : Pos) :
    dragMove r P (dragMove r P st) = dragMove r P st := by
  cases hS : snapLookup st.dragSnapshot r with
  | none =>
    have hS2 : snapLookup (dragMove r P st).dragSnapshot r = none := by
      rw [dragMove_dragSnapshot, hS]
    rw [dragMove_of_no_snapshot _ r P hS2, dragMove_of_no_snapshot st r P hS]
    exact rendererMove_idem r P st
  | some S =>
    have hS2 : snapLookup (dragMove r P st).dragSnapshot r = some S := by
      rw [dragMove_dragSnapshot, hS]
    cases h0 : snapPos S r with
    | none =>
      rw [dragMove_of_no_start _ r P S hS2 h0, dragMove_of_no_start st r P S hS h0]
      exact rendererMove_idem r P st
    | some s0 =>
      cases hemp : ((S.map Prod.fst).filter fun id => id ≠ r).isEmpty with
      | true =>
        rw [dragMove_of_leaf _ r P S s0 hS2 h0 hemp,
          dragMove_of_leaf st r P S s0 hS h0 hemp]
        exact rendererMove_idem r P st
      | false =>
        rw [dragMove_of_descendants _ r P S s0 hS2 h0 hemp,
          dragMove_of_descendants st r P S s0 hS h0 hemp]
        simp only [List.map_map]
        have hfun :
            ((fun n => applySnapshotDelta S (P.x - s0.x) (P.y - s0.y) (moveNodeTo r P n)) ∘
              fun n => applySnapshotDelta S (P.x - s0.x) (P.y - s0.y) (moveNodeTo r P n)) =
              fun n => applySnapshotDelta S (P.x - s0.x) (P.y - s0.y) (moveNodeTo r P n) :=
          funext fun n => applyMove_idem S (P.x - s0.x) (P.y - s0.y) r P n
        rw [hfun]

/-- C8: frame property of DragMove.  A DragMove for a root `r` with stored
snapshot `S` leaves the live position of every id outside `S` exactly as
it was; since a childless node's snapshot holds only the node itself,
dragging it moves only that node. -/
theorem dragMove_frame (st : DragState) (r : String) (P : Pos) (S : Snapshot)
    (s0 : Pos)
    (hS : snapLookup st.dragSnapshot r = some S) (h0 : snapPos S r = some s0)
    (id : String) (hout : snapPos S id = none) :
    posLookup (dragMove r P st).nodes id = posLookup st.nodes id := by
  have hidr : ¬ id = r := ne_root_of_snapPos_none S r id s0 h0 hout
  cases hemp : ((S.map Prod.fst).filter fun i => i ≠ r).isEmpty with
  | true =>
    rw [dragMove_of_leaf st r P S s0 hS h0 hemp]
    exact posLookup_map_fixed (moveNodeTo r P) st.nodes id (fun n => by rw [moveNodeTo_eq])
      fun n hn => moveNodeTo_fixed r P n (by rw [hn]; exact hidr)
  | false =>
    rw [dragMove_of_descendants st r P S s0 hS h0 hemp]
    refine posLookup_map_fixed _ st.nodes id
      (fun n => by rw [applySnapshotDelta_eq, moveNodeTo_eq]) fun n hn => ?_
    rw [moveNodeTo_fixed r P n (by rw [hn]; exact hidr),
      applySnapshotDelta_fixed S _ _ n (by rw [hn]; exact hout)]

/-- Witness for C8: dragging the childless node 3 (whose snapshot holds
node 3 alone) to (160, 150) leaves the live position of node 2
untouched. -/
theorem dragMove_frame_witness :
    snapLookup exLeafDrag.dragSnapshot "3" = some [("3", { x := 110, y := 120 })] ∧
    snapPos [("3", ({ x := 110, y := 120 } : Pos))] "3" = some { x := 110, y := 120 } ∧
    snapPos [("3", ({ x := 110, y := 120 } : Pos))] "2" = none ∧
    posLookup (dragMove "3" { x := 160, y := 150 } exLeafDrag).nodes "2"
      = posLookup exLeafDrag.nodes "2" := by
  refine ⟨by decide, by decide, by decide, ?_⟩
  exact dragMove_frame exLeafDrag "3" { x := 160, y := 150 }
    [("3", { x := 110, y := 120 })] { x := 110, y := 120 }
    (by decide) (by decide) "2" (by decide)

/-- C9: a DragMove event for an id with no stored snapshot is a silent
no-op of the drag session manager: the handler returns without touching
any live position and without raising an error. -/
theorem onNodeDrag_no_snapshot_noop (st : DragState) (r : String) (P : Pos)
    (h : snapLookup st.dragSnapshot r = none) :
    onNodeDrag r P st = st := by
  unfold onNodeDrag
  rw [h]

/-- Witness for C9: with no active drag, a move event for node 1 leaves
the state untouched. -/
theorem onNodeDrag_no_snapshot_noop_witness :
    snapLookup exNoDrag.dragSnapshot "1" = none ∧
    onNodeDrag "1" { x := 50, y := 30 } exNoDrag = exNoDrag :=
  ⟨by decide, onNodeDrag_no_snapshot_noop exNoDrag "1" { x := 50, y := 30 } (by decide)⟩

/-- C10: DragStart fallback.  For every descendant id found through the
relation index but absent from the live node set, the snapshot that
DragStart stores for the dragged root seeds that id at the dragged node's
position offset by the fixed vertical increment 40, instead of failing. -/
theorem onNodeDragStart_missing_fallback (st : DragState) (r : String) (p : Pos)
    (d : String) (hd : d ∈ collectDescendants st.parentMap r)
    (hmiss : posLookup st.nodes d = none) (hne : d ≠ r) :
    ∀ S, snapLookup (onNodeDragStart r p st).dragSnapshot r = some S →
      snapPos S d = some { x := p.x, y := p.y + 40 } := by
  intro S hS
  unfold onNodeDragStart at hS
  rw [snapLookup_snapUpdate_self] at hS
  obtain rfl := Option.some.inj hS
  rw [snapPos, if_neg (fun h => hne h.symm)]
  have h2 : snapPos ((collectDescendants st.parentMap r).map fun d2 =>
      (d2, match posLookup st.nodes d2 with
           | some q => q
           | none => { x := p.x, y := p.y + 40 })) d
      = some (match posLookup st.nodes d with
              | some q => q
              | none => { x := p.x, y := p.y + 40 }) :=
    snapPos_map_pair _ _ d hd
  rw [hmiss] at h2
  exact h2

/-- Witness for C10: node 2 is recorded as child of node 1 in the relation
index but missing from the live node set; DragStart of node 1 at (3, 4)
seeds node 2's snapshot entry at (3, 44). -/
theorem onNodeDragStart_missing_fallback_witness :
    "2" ∈ collectDescendants exMissing.parentMap "1" ∧
    posLookup exMissing.nodes "2" = none ∧
    snapPos [("1", ({ x := 3, y := 4 } : Pos)), ("2", { x := 3, y := 44 })] "2"
      = some { x := 3, y := 44 } := by
  refine ⟨by decide, by decide, ?_⟩
  exact onNodeDragStart_missing_fallback exMissing "1" { x := 3, y := 4 } "2"
    (by decide) (by decide) (by decide)
    [("1", { x := 3, y := 4 }), ("2", { x := 3, y := 44 })] (by decide)

/-- C2 counterexample: for the nested input [[1]] the build produces 4
nodes (outer Array, entry node 0, inner Array, entry node 0: 1) while
1 plus the total number of entries across all containers encountered
(one entry in each of the two arrays) is 3: the claimed formula
undercounts, because a container-valued entry also receives a node for
the container itself when the traversal recurses into it. -/
theorem buildFlow_count_counterexample :
    ¬ ((buildFlow (JSON.arr (.cons (JSON.arr (.cons (JSON.num 1) .nil)) .nil))).nodes.length
        = 1 + totalEntries (JSON.arr (.cons (JSON.arr (.cons (JSON.num 1) .nil)) .nil))) := by
  decide

/-- C2 (amended): for every JSON value, the node count of the build equals
1 plus the total number of entries across every container encountered
during the traversal plus the number of containers encountered strictly
below the root value (each container-valued entry contributes one extra
node for the container itself); primitives contribute 0 extra nodes. -/
theorem buildFlow_node_count (v : JSON) :
    (buildFlow v).nodes.length = 1 + totalEntries v + nestedContainers v := by
  have h := traverseJSON_labels v 0 0 none
    { newNodes := [], newEdges := [], relations := [], counter := 1 }
  simp only [List.map_nil, List.nil_append] at h
  have h2 := congrArg List.length h
  rw [List.length_map] at h2
  rw [← labelSpec_length v]
  exact h2

/-- C3: the relation index and the edge set of a build always agree:
`id2` is listed among the children of `id1` exactly when an edge with
source `id1` and target `id2` is in the edge set, because both are pushed
in lockstep by the same traversal. -/
theorem buildFlow_relationIndex_edges_agree (v : JSON) (id1 id2 : String) :
    id2 ∈ relLookup (buildFlow v).relations id1 ↔
      ∃ e ∈ (buildFlow v).edges, e.source = id1 ∧ e.target = id2 := by
  have h0 : relEdgeAgree ([] : List (String × List String)) ([] : List FlowEdge) := by
    intro a b
    simp [relLookup]
  exact traverseJSON_agree v 0 0 none
    { newNodes := [], newEdges := [], relations := [], counter := 1 } h0 id1 id2

/-- C4: the graph builder is deterministic and independent of prior state:
two runs of generateFlow on the same JSON value, starting from any two
component states (any prior id counter, node set, relation index), commit
identical nodes (hence identical ids, labels and positions), identical
edges and identical relation indexes, because the id counter is reset to 1
and all accumulators start fresh on every run. -/
theorem generateFlow_deterministic (v : JSON) (a1 a2 : AppState) :
    (runGenerateFlow v a1).nodes = (runGenerateFlow v a2).nodes ∧
    (runGenerateFlow v a1).edges = (runGenerateFlow v a2).edges ∧
    (runGenerateFlow v a1).parentMap = (runGenerateFlow v a2).parentMap :=
  ⟨rfl, rfl, rfl⟩

/-- C5: contrary to the claim, a rebuild does not invalidate drag
snapshots.  Rebuilding from the one-element array [1] replaces the node
set (the new nodes have ids 1 and 2) while the in-progress snapshot keyed
on node 9 of the replaced node set survives unchanged in the dragSnapshot
ref: no statement of generateFlow or of the effect that calls it clears
dragSnapshot.current. -/
theorem generateFlow_keeps_stale_snapshot :
    (runGenerateFlow (JSON.arr (.cons (JSON.num 1) .nil)) exStaleApp).dragSnapshot
        = [("9", [("9", { x := 0, y := 0 }), ("10", { x := 0, y := 120 })])] ∧
    (runGenerateFlow (JSON.arr (.cons (JSON.num 1) .nil)) exStaleApp).nodes.map
        FlowNode.id = ["1", "2"] := by
  constructor
  · decide
  · decide

/-- C6 counterexample: for the input null the claim predicts the node
label "null" (the primitive's string form), but the build labels the node
"Object", because the JavaScript test typeof null === "object" is true. -/
theorem buildFlow_null_label_counterexample :
    ¬ ((buildFlow JSON.null).nodes.map FlowNode.label = [jsString JSON.null]) := by
  decide

/-- C6 (amended): in traversal order, every visited value's own node is
labelled "Array" for an array, "Object" for an object and also for null,
and the primitive's string form otherwise; every entry node is labelled
with the bare key when the entry's value is a container or null, and with
"key: value" otherwise. -/
theorem buildFlow_labels (v : JSON) :
    (buildFlow v).nodes.map FlowNode.label = labelSpec v := by
  have h := traverseJSON_labels v 0 0 none
    { newNodes := [], newEdges := [], relations := [], counter := 1 }
  simpa using h
